import Mathlib

/-!
Verification of the multipart codec in `include/crow/multipart.h`.

The C++ code is shallowly embedded: `std::string` becomes `List Char`,
`size_t` arithmetic is `Nat` arithmetic modulo `2 ^ 64` (so that the
`npos + k` wraparounds of the source are reproduced exactly), and code
that can throw `std::out_of_range` returns an `Option`.  Loops that the
source runs with mutation are embedded as fuel-indexed recursions; the
fuel models the number of loop iterations the C++ loop has executed, and
running out of fuel models a loop that has not yet terminated.
-/

namespace Crow.Multipart

/-- Strings are embedded as lists of characters. -/
abbrev Str := List Char

/-- Shorthand turning a Lean string literal into the embedded type. -/
def str (s : String) : Str := s.toList

/-- The modulus of `size_t` arithmetic, `2 ^ 64`. -/
def W : Nat := 18446744073709551616

/-- The value of `std::string::npos` on a 64-bit platform, `2 ^ 64 - 1`. -/
def NPOS : Nat := 18446744073709551615

/-- Addition of `size_t` values, wrapping modulo `2 ^ 64`. -/
def sadd (a b : Nat) : Nat := (a + b) % W

/-- Subtraction of `size_t` values, wrapping modulo `2 ^ 64` (defined for `b ≤ W`). -/
def ssub (a b : Nat) : Nat := (a + W - b) % W

/-- The double-quote character, used by `trim` and `pad`. -/
def dquote : Char := Char.ofNat 34

/-- The constant `dd = "--"` from the source. -/
def dd : Str := str "--"

/-- Modelled from the spec: `crow::crlf` is defined outside the excerpt; per the
spec the framing uses CRLF line termination, so `crlf` is the two-character
carriage-return/line-feed terminator. -/
def crlf : Str := str "\r\n"

/-- Character-by-character comparison of a candidate occurrence: does the
first list start the second one? -/
def startsWith : Str → Str → Bool
  | [], _ => true
  | _ :: _, [] => false
  | c :: t, a :: y => c == a && startsWith t y

/-- Helper for `std::string::find`: the least index at which `pat` occurs in the
scanned suffix, if any.  An empty pattern occurs at index 0, as in C++. -/
def findAux (pat : Str) : Str → Option Nat
  | [] => if pat.isEmpty then some 0 else none
  | c :: rest =>
    if startsWith pat (c :: rest) then some 0
    else (findAux pat rest).map (fun i => i + 1)

/-- Embeds `s.find(pat)`: the least index of an occurrence, or `NPOS`. -/
def find (s pat : Str) : Nat := (findAux pat s).getD NPOS

/-- Embeds `s.substr(0, count)`: never throws, and clamps `count` to the size
(`List.take` clamps the same way). -/
def substr0 (s : Str) (count : Nat) : Str := s.take count

/-- Embeds `s.substr(pos)` (count defaulted to `npos`, so the whole suffix is
taken): throws `std::out_of_range` — here `none` — iff `pos > s.size()`. -/
def substr1 (s : Str) (pos : Nat) : Option Str :=
  if pos ≤ s.length then some (s.drop pos) else none

/-- Embeds `s.erase(0, count)` as used by the source (position always 0, so it
never throws; the count is clamped to the size, as `List.drop` clamps). -/
def erase0 (s : Str) (count : Nat) : Str := s.drop count

/-- Embeds `s[0]`: for an empty string, `operator[]` at index `size()` yields
the null character. -/
def at0 (s : Str) : Char := s.headD (Char.ofNat 0)

/-- The `header` struct: a primary `(name, value)` pair plus the parameters.
The C++ `std::unordered_map` is embedded as an insertion-ordered association
list whose keys are kept unique by `emplace`; C++ iterates an `unordered_map`
in unspecified order, the embedding iterates in insertion order. -/
structure header where
  value : Str × Str
  params : List (Str × Str)
deriving DecidableEq

/-- The `part` struct: the headers of a section and its raw body. -/
structure part where
  headers : List header
  body : Str
deriving DecidableEq

/-- The `message` struct, restricted to the two fields the multipart logic
reads and writes: the boundary token and the parts.  (The message-level HTTP
header map is owned by the surrounding request layer and is not touched by the
parsing and serialization code under verification.) -/
structure message where
  boundary : Str
  parts : List part
deriving DecidableEq

/-- Embeds `unordered_map::emplace`: inserts only when the key is absent, so a
later insertion with an existing key is silently dropped. -/
def emplace (m : List (Str × Str)) (k v : Str) : List (Str × Str) :=
  if m.any (fun p => p.1 == k) then m else m ++ [(k, v)]

/-- Embeds `message::trim`: strips one layer of surrounding double quotes,
via `substr(1, length() - 2)`, when the string has length > 1 and both its
first and last characters are quotes. -/
def trim (s : Str) : Str :=
  if 1 < s.length ∧ at0 s = dquote ∧ s.getLastD (Char.ofNat 0) = dquote then
    (s.drop 1).take (s.length - 2)
  else s

/-- Embeds `message::pad`: surrounds the string with one double quote on each
side. -/
def pad (s : Str) : Str := dquote :: s ++ [dquote]

/-- The token `"boundary="` searched for by `get_boundary`; `strlen` of it
is its length, 9. -/
def boundary_text : Str := str "boundary="

/-- Embeds `message::get_boundary`.  Faithful to the source, including its
truthiness test `if (found)` on the found index (so an occurrence at index 0
falls through to the empty-string return) and the `size_t` wraparound of
`found + strlen("boundary=")` when `found` is `npos`.  `none` models an
escaping `std::out_of_range` from `substr`. -/
def get_boundary (hdr : Str) : Option Str :=
  let found := find hdr boundary_text
  if found ≠ 0 then
    (substr1 hdr (sadd found boundary_text.length)).map (fun to_return =>
      if at0 to_return = dquote then
        (to_return.drop 1).take (ssub to_return.length 2)
      else to_return)
  else some []

/-- Embeds the inner `while (!line.empty())` parameter loop of
`parse_section_head`.  Each iteration splits off the token before the first
`"; "`, splits the token at its first `'='` (`param.substr(param_split + 1)`
never throws: when the split is `npos`, `npos + 1` wraps to 0), quote-trims
the value and `emplace`s the pair. -/
def params_loop : Nat → Str → List (Str × Str) → List (Str × Str)
  | 0, _, ps => ps
  | fuel + 1, line, ps =>
    if line = [] then ps
    else
      let found := find line (str "; ")
      let param := substr0 line found
      let line2 := if found ≠ NPOS then erase0 line (sadd found 2) else []
      let param_split := find param (str "=")
      let value := (substr1 param (sadd param_split 1)).getD []
      params_loop fuel line2 (emplace ps (substr0 param param_split) (trim value))

/-- Embeds the outer `while (!lines.empty())` loop of `parse_section_head`.
Each iteration splits off one line at the first CRLF, derives the primary
`(name, value)` pair from the text before the first `"; "`, and parses the
rest of the line as parameters.  `none` models the `std::out_of_range` thrown
by `header.substr(header_split + 2)` when the line has no `": "` and the
segment before the first `"; "` is empty (`npos + 2` wraps to 1, and
`substr(1)` throws on an empty string). -/
def parse_section_head_loop : Nat → Str → List header → Option (List header)
  | 0, _, acc => some acc
  | fuel + 1, lines, acc =>
    if lines = [] then some acc
    else
      let found := find lines crlf
      let line := substr0 lines found
      let lines2 := erase0 lines (sadd found 2)
      let step : Option header :=
        if line = [] then some ⟨([], []), []⟩
        else
          let found2 := find line (str "; ")
          let hdr := substr0 line found2
          let line2 := if found2 ≠ NPOS then erase0 line (sadd found2 2) else []
          let header_split := find hdr (str ": ")
          (substr1 hdr (sadd header_split 2)).map (fun v =>
            ⟨(substr0 hdr header_split, v), params_loop (line2.length + 1) line2 []⟩)
      match step with
      | none => none
      | some to_add => parse_section_head_loop fuel lines2 (acc ++ [to_add])

/-- Embeds `message::parse_section_head`.  The loop strictly shortens `lines`
on every iteration (each iteration erases at least one character), so
`lines.length + 1` units of fuel always suffice. -/
def parse_section_head (lines : Str) : Option (List header) :=
  parse_section_head_loop (lines.length + 1) lines []

/-- Embeds `message::parse_section`: splits one raw section at the first
CRLF-CRLF marker into a header block (kept up to and including the first CRLF
of the marker, via `substr(0, found + 2)`) and a body (everything after the
marker with the last two characters removed, via
`substr(0, section.length() - 2)`); the `size_t` wraparounds for a missing
marker (`npos + 2 = 1`, `npos + 4 = 3`) are reproduced exactly. -/
def parse_section (sec : Str) : Option part :=
  let found := find sec (crlf ++ crlf)
  let head_line := substr0 sec (sadd found 2)
  let sec2 := erase0 sec (sadd found 4)
  (parse_section_head head_line).map (fun hs =>
    ⟨hs, substr0 sec2 (ssub sec2.length 2)⟩)

/-- Result of running a C++ loop for a bounded number of iterations. -/
inductive cppResult (α : Type) where
  /-- The loop terminated normally with this value. -/
  | ok : α → cppResult α
  /-- A `std::out_of_range` exception escaped the loop. -/
  | thrown : cppResult α
  /-- The loop has not terminated within the given number of iterations. -/
  | noFuel : cppResult α
deriving DecidableEq

/-- Embeds the `while (body != crlf)` loop of `message::parse_body`: find the
delimiter, cut the section before it, erase through the delimiter plus two
characters, and parse every non-empty section.  When the delimiter is absent,
`found` is `npos` and the erase count `npos + delimiter.length() + 2` wraps to
`delimiter.length() + 1`. -/
def parse_body_loop : Nat → Str → Str → List part → cppResult (List part)
  | 0, _, _, _ => .noFuel
  | fuel + 1, delimiter, body, sections =>
    if body = crlf then .ok sections
    else
      let found := find body delimiter
      let sec := substr0 body found
      let body2 := erase0 body (sadd (sadd found delimiter.length) 2)
      if sec = [] then parse_body_loop fuel delimiter body2 sections
      else
        match parse_section sec with
        | none => .thrown
        | some p => parse_body_loop fuel delimiter body2 (sections ++ [p])

/-- Embeds `message::parse_body` with the delimiter `dd + boundary`, run for
`fuel` loop iterations. -/
def parse_body (fuel : Nat) (boundary body : Str) : cppResult (List part) :=
  parse_body_loop fuel (dd ++ boundary) body []

/-- Embeds the header-emission part of `message::dump(int)`: the primary pair
as `name: value`, then `"; " key '=' pad(value)` for every parameter, then a
CRLF. -/
def dump_header (h : header) : Str :=
  h.value.1 ++ str ": " ++ h.value.2 ++
    (h.params.foldl (fun acc pr => acc ++ str "; " ++ pr.1 ++ str "=" ++ pad pr.2) []) ++
    crlf

/-- Embeds the body of `message::dump(int)` for an in-range part: every header,
a blank line, then the body followed by a CRLF. -/
def dump_part_core (p : part) : Str :=
  (p.headers.foldl (fun acc h => acc ++ dump_header h) []) ++ crlf ++ p.body ++ crlf

/-- Embeds `message::dump(int)` including its unchecked `parts[part_]` access:
for an index at or beyond `parts.size()`, `std::vector::operator[]` performs no
bounds check and the read has no defined result in C++, which the embedding
records as `none`. -/
def dump_part (m : message) (i : Nat) : Option Str :=
  if h : i < m.parts.length then some (dump_part_core (m.parts.get ⟨i, h⟩)) else none

/-- Embeds `message::dump()`: `--boundary CRLF` then `dump(i)` for every part
in order, then the terminal `--boundary-- CRLF`.  Every index the loop uses is
in range, so this is total. -/
def dump (m : message) : Str :=
  (m.parts.foldl (fun acc p => acc ++ (dd ++ m.boundary) ++ crlf ++ dump_part_core p) []) ++
    (dd ++ m.boundary) ++ dd ++ crlf

/-! Concrete inputs used by the claims. -/

/-- Scenario A body from the spec, with boundary `X`. -/
def scenarioA_body : Str :=
  str "--X\r\nContent-Disposition: form-data; name=\"f\"\r\n\r\nhello\r\n--X--\r\n"

/-- The part the spec expects Scenario A to parse to. -/
def scenarioA_part : part :=
  ⟨[⟨(str "Content-Disposition", str "form-data"), [(str "name", str "f")]⟩], str "hello"⟩

/-- Scenario B body from the spec (a part with an empty header block), with
boundary `X`. -/
def scenarioB_body : Str := str "--X\r\n\r\nbody\r\n--X--\r\n"

/-- A two-part body with boundary `X` whose first part carries an unquoted
parameter value, exercising the quoting normalization of serialization. -/
def twoPart_body : Str :=
  str "--X\r\nContent-Disposition: form-data; name=q\r\n\r\none\r\n--X\r\nContent-Type: text/plain\r\n\r\ntwo\r\n--X--\r\n"

/-- The parts `twoPart_body` parses to. -/
def twoPart_parts : List part :=
  [⟨[⟨(str "Content-Disposition", str "form-data"), [(str "name", str "q")]⟩], str "one"⟩,
   ⟨[⟨(str "Content-Type", str "text/plain"), []⟩], str "two"⟩]

/-- A boundary whose text looks like an unquoted parameter list; `get_boundary`
can produce such boundaries from `boundary=abc; charset=\"x\"`, since it does
not stop the scan at a semicolon. -/
def bnd0 : Str := str "abc; charset=\"x\""

/-- A well-formed body for the boundary `bnd0`: one part whose header carries
the same parameter unquoted, so the raw body nowhere contains the delimiter. -/
def body0 : Str :=
  dd ++ bnd0 ++ crlf ++ str "A: zz--abc; charset=x\r\n\r\nhi\r\n" ++ dd ++ bnd0 ++ str "--\r\n"

/-- The parts `body0` parses to. -/
def parts0 : List part :=
  [⟨[⟨(str "A", str "zz--abc"), [(str "charset", str "x")]⟩], str "hi"⟩]

/-- The parts that re-parsing `dump ⟨bnd0, parts0⟩` actually yields: the
re-quoted parameter recreates the delimiter inside the serialized header line,
so the split cuts the part in two. -/
def parts0_reparsed : List part :=
  [⟨[⟨(str "A", str ""), []⟩], str ""⟩,
   ⟨[⟨(str "\r", str ""), []⟩], str "i"⟩]

/-! Theorems settling the claims. -/

/-- Helper: once the remaining body is empty, the `parse_body` loop is stuck —
the loop condition compares against CRLF, the empty string never equals CRLF,
and every iteration leaves the empty body empty, so no amount of fuel makes
the loop terminate. -/
theorem parse_body_loop_nil_body (fuel : Nat) :
    ∀ (delimiter : Str) (sections : List part),
      parse_body_loop fuel delimiter [] sections = .noFuel := by
  induction fuel with
  | zero => intro d s; rfl
  | succ n ih =>
    intro d s
    simp only [parse_body_loop, substr0, erase0, List.take_nil, List.drop_nil]
    rw [if_neg (by decide)]
    rw [if_pos trivial]
    exact ih d s

/-- C1: the claim fails on the code.  For a header value in which `boundary=`
starts at offset 0, `get_boundary` returns the empty string instead of the
token `X`, because `if (found)` treats the found index 0 as false; the very
same token one character later is extracted fine. -/
theorem get_boundary_at_offset_zero_returns_empty :
    get_boundary (str "boundary=X") = some [] ∧
      get_boundary (str "xboundary=X") = some (str "X") := by
  decide

/-- C2: the claim fails on the code.  For a header value without `boundary=`,
`find` yields `npos`, which `if (found)` treats as found; `npos + 9` wraps to
8, so `get_boundary` returns the suffix of the header from index 8 (here
`"in"` for `"text/plain"`) instead of the empty string, and for a header
shorter than 8 characters `substr(8)` throws `std::out_of_range`. -/
theorem get_boundary_absent_token_not_empty :
    get_boundary (str "text/plain") = some (str "in") ∧
      get_boundary (str "") = none := by
  decide

/-- C5: the claim fails on the code.  Parsing the Scenario B body
`--X CRLF CRLF body CRLF --X-- CRLF` with boundary `X` yields one part whose
header list contains a single garbage header (name `"\r"`, empty value) and
whose body is `"ody"`, not a part with an empty header sequence and body
`"body"`: the section is `CRLF body CRLF`, which contains no CRLF-CRLF marker,
so `find` returns `npos` and the wrapped offsets slice the section wrongly. -/
theorem empty_header_block_section_misparsed :
    parse_body 9 (str "X") scenarioB_body =
      .ok [⟨[⟨(str "\r", str ""), []⟩], str "ody"⟩] := by
  decide

/-- C6: the claim fails on the code.  A non-empty header line without `": "`
contributes the garbage primary pair `("abc", "bc")` — `substr(0, npos)` is
the whole line and `substr(npos + 2) = substr(1)` drops one character — not
"no primary pair"; a parameter token without `=` yields the whole token as its
own value (`substr(npos + 1) = substr(0)`), not an empty value; and a line
whose text before the first `"; "` is empty makes `substr(1)` throw
`std::out_of_range`. -/
theorem malformed_header_line_yields_garbage_pair :
    parse_section_head (str "abc\r\n") = some [⟨(str "abc", str "bc"), []⟩] ∧
      parse_section_head (str "a: b; flag\r\n") =
        some [⟨(str "a", str "b"), [(str "flag", str "flag")]⟩] ∧
      parse_section_head (str "; x\r\n") = none := by
  decide

/-- C3: the claim fails on the code.  When the delimiter is never found, the
split does not end with the sections collected so far: on the body `junk`
(with boundary `X`) the wrapped erase count empties the buffer after one
iteration, the empty buffer never equals the CRLF terminator, and the loop
runs forever — for every number of loop iterations the loop has still not
terminated.  The same holds from an empty body. -/
theorem parse_body_no_delimiter_never_terminates (fuel : Nat) :
    parse_body fuel (str "X") (str "junk") = .noFuel ∧
      parse_body fuel (str "X") [] = .noFuel := by
  refine ⟨?_, parse_body_loop_nil_body fuel _ _⟩
  match fuel with
  | 0 => rfl
  | n + 1 =>
    have h1 : parse_body (n + 1) (str "X") (str "junk") =
        parse_body_loop n (dd ++ str "X") [] [⟨[⟨(str "j", str ""), []⟩], str "k"⟩] := rfl
    rw [h1]
    exact parse_body_loop_nil_body n _ _

/-- C8: confirmed.  The Scenario A body with boundary `X` parses to exactly one
part with the single header `Content-Disposition: form-data`, the parameter
`name` mapped to `f` with the quotes stripped, and the body `hello`. -/
theorem scenarioA_parses_to_expected_part :
    parse_body 9 (str "X") scenarioA_body = .ok [scenarioA_part] := by
  decide

/-- C7: the claim fails on the code.  `dump(int)` reads `parts[part_]` with
`std::vector::operator[]`, which performs no bounds check: for an index at or
beyond `parts.size()` the access is undefined behavior, not a clear
out-of-range error.  In the embedding the access has no defined result. -/
theorem dump_part_out_of_range (m : message) (i : Nat) (h : m.parts.length ≤ i) :
    dump_part m i = none := by
  unfold dump_part
  exact dif_neg (by omega)

/-- C7 witness: the out-of-range theorem applied to a message with no parts. -/
theorem dump_part_out_of_range_witness :
    dump_part ⟨str "X", []⟩ 0 = none :=
  dump_part_out_of_range ⟨str "X", []⟩ 0 (by decide)

/-- Helper for C9: every part in a normal result of the body-splitting loop
either was already in the accumulator or is the parse of some non-empty
section text. -/
theorem parse_body_loop_mem (fuel : Nat) :
    ∀ (delimiter body : Str) (acc res : List part),
      parse_body_loop fuel delimiter body acc = .ok res →
      ∀ p ∈ res, p ∈ acc ∨ ∃ s, s ≠ [] ∧ parse_section s = some p := by
  induction fuel with
  | zero =>
    intro d b acc res h
    exact absurd h (by simp [parse_body_loop])
  | succ n ih =>
    intro d b acc res h p hp
    simp only [parse_body_loop] at h
    split at h
    · obtain rfl : acc = res := by injection h
      exact Or.inl hp
    · split at h
      · exact ih _ _ _ _ h p hp
      · rename_i hsec
        split at h
        · exact absurd h (by simp)
        · rename_i q hq
          rcases ih _ _ _ _ h p hp with hmem | hex
          · rcases List.mem_append.mp hmem with h1 | h2
            · exact Or.inl h1
            · right
              refine ⟨_, hsec, ?_⟩
              rw [hq, List.mem_singleton.mp h2]
          · exact Or.inr hex

/-- C9: confirmed.  Whenever the body-splitting loop of `parse_body` terminates
normally, every part it produced was parsed from a non-empty section text: a
section that comes out empty is dropped and never becomes a part. -/
theorem parts_only_from_nonempty_sections (fuel : Nat) (boundary body : Str)
    (res : List part) (h : parse_body fuel boundary body = .ok res) :
    ∀ p ∈ res, ∃ s, s ≠ [] ∧ parse_section s = some p := by
  intro p hp
  rcases parse_body_loop_mem fuel (dd ++ boundary) body [] res h p hp with hmem | hex
  · exact absurd hmem (List.not_mem_nil p)
  · exact hex

/-- C9 witness: the theorem applied to the Scenario A body with boundary `X`
(the body parses to exactly the expected single part, discharged by decide),
so that part comes from some non-empty section. -/
theorem parts_only_from_nonempty_sections_witness :
    ∃ s, s ≠ [] ∧ parse_section s = some scenarioA_part :=
  parts_only_from_nonempty_sections 9 (str "X") scenarioA_body [scenarioA_part]
    (by decide) scenarioA_part (by decide)

/-- C4 counterexample: the round-trip claim fails at an explicit input.
`body0` parses (with the boundary `bnd0` it was framed with) to `parts0`, but
serialization re-quotes the `charset` parameter, which recreates the delimiter
`--abc; charset="x"` inside the serialized header line, and re-parsing the
serialized output yields two garbage parts instead of `parts0`. -/
theorem roundtrip_fails_for_param_like_boundary :
    parse_body 9 bnd0 body0 = .ok parts0 ∧
      parse_body 9 bnd0 (dump ⟨bnd0, parts0⟩) = .ok parts0_reparsed ∧
      parse_body 9 bnd0 (dump ⟨bnd0, parts0⟩) ≠ .ok parts0 := by
  decide

/-- C4 (amended): re-parsing the serialized output of a parsed message yields
the same parsed parts provided serialization introduces no new occurrence of
the delimiter (in particular the quotes it adds around parameter values must
not complete delimiter text, as they do in the counterexample).  Verified here
for the Scenario A body, whose parameter value is already quoted (the round
trip is even byte-identical there), and for a two-part body with an unquoted
parameter value, where serialization normalizes the quoting but re-parsing
still returns the same structured parts. -/
theorem roundtrip_holds_without_new_delimiter_occurrence :
    (parse_body 9 (str "X") scenarioA_body = .ok [scenarioA_part] ∧
      dump ⟨str "X", [scenarioA_part]⟩ = scenarioA_body ∧
      parse_body 9 (str "X") (dump ⟨str "X", [scenarioA_part]⟩) = .ok [scenarioA_part]) ∧
    (parse_body 9 (str "X") twoPart_body = .ok twoPart_parts ∧
      dump ⟨str "X", twoPart_parts⟩ ≠ twoPart_body ∧
      parse_body 9 (str "X") (dump ⟨str "X", twoPart_parts⟩) = .ok twoPart_parts) := by
  decide

/-! Lemmas about `find` used for the duplicate-parameter claim. -/

/-- Unfolding equation for `startsWith` on two conses. -/
theorem startsWith_cons_eq (c a : Char) (t y : Str) :
    startsWith (c :: t) (a :: y) = (c == a && startsWith t y) := rfl

/-- Scanning an appended list for a pattern whose first character does not
occur in the left part finds the pattern in the right part, shifted. -/
theorem findAux_append_head (c : Char) (t l1 l2 : Str) (h : c ∉ l1) :
    findAux (c :: t) (l1 ++ l2) = (findAux (c :: t) l2).map (fun i => i + l1.length) := by
  induction l1 with
  | nil =>
    simp only [List.nil_append, List.length_nil]
    cases findAux (c :: t) l2 <;> simp
  | cons a l1 ih =>
    have hca : (c == a) = false := by
      rw [beq_eq_false_iff_ne]
      intro he
      exact h (he ▸ List.mem_cons_self a l1)
    rw [List.cons_append]
    show (if startsWith (c :: t) (a :: (l1 ++ l2)) then some 0
        else (findAux (c :: t) (l1 ++ l2)).map (fun i => i + 1)) = _
    rw [startsWith_cons_eq, hca]
    simp only [Bool.false_and, Bool.false_eq_true, if_false]
    rw [ih (fun hm => h (List.mem_cons_of_mem a hm))]
    cases findAux (c :: t) l2 with
    | none => rfl
    | some i => simp [List.length_cons]; omega

/-- A pattern whose first character does not occur in the scanned list is not
found. -/
theorem findAux_none_head (c : Char) (t l : Str) (h : c ∉ l) :
    findAux (c :: t) l = none := by
  have h2 := findAux_append_head c t l [] h
  rw [List.append_nil] at h2
  rw [h2]
  rfl

/-- If the pattern's first character does not occur in `l1` and the pattern is
an immediate prefix of `l2`, then `find` on `l1 ++ l2` yields `l1.length`. -/
theorem find_prefix (c : Char) (t l1 l2 : Str) (h : c ∉ l1)
    (h0 : findAux (c :: t) l2 = some 0) :
    find (l1 ++ l2) (c :: t) = l1.length := by
  unfold find
  rw [findAux_append_head c t l1 l2 h, h0]
  simp

/-- If the pattern's first character does not occur in the scanned list, `find`
yields `NPOS`. -/
theorem find_none_head (c : Char) (t l : Str) (h : c ∉ l) :
    find l (c :: t) = NPOS := by
  unfold find
  rw [findAux_none_head c t l h]
  rfl

/-- The first `=` of a token `k=<value>` is at index 1, whatever the value. -/
theorem find_keq (v : Str) : find (str "k=" ++ v) (str "=") = 1 :=
  find_prefix '=' [] (str "k") ('=' :: v) (by decide) rfl

/-- The suffix of `k=<value>` from position 2 is the value, whatever it is. -/
theorem substr1_keq (v : Str) : substr1 (str "k=" ++ v) (sadd 1 1) = some v := by
  unfold substr1
  rw [show sadd 1 1 = 2 from rfl, if_pos]
  · rfl
  · rw [List.length_append, show (str "k=").length = 2 from rfl]
    omega

/-- The parameter loop is the identity once the remaining line is empty. -/
theorem params_loop_nil (fuel : Nat) (ps : List (Str × Str)) :
    params_loop fuel [] ps = ps := by
  cases fuel <;> rfl

/-- The header-block loop returns its accumulator once the remaining text is
empty. -/
theorem parse_section_head_loop_nil (fuel : Nat) (acc : List header) :
    parse_section_head_loop fuel [] acc = some acc := by
  cases fuel <;> rfl

/-- Processing the single semicolon-free parameter token `k=<v>` emplaces the
pair `(k, trim v)` and stops. -/
theorem params_loop_single (fuel : Nat) (v : Str) (ps : List (Str × Str))
    (hv : ';' ∉ v) (hlen : v.length + 2 ≤ NPOS) (hf : 0 < fuel) :
    params_loop fuel (str "k=" ++ v) ps = emplace ps (str "k") (trim v) := by
  obtain ⟨n, rfl⟩ : ∃ n, fuel = n + 1 := ⟨fuel - 1, by omega⟩
  have hne : str "k=" ++ v ≠ [] := by
    show 'k' :: ('=' :: v) ≠ []
    exact List.cons_ne_nil _ _
  have hnotin : ';' ∉ str "k=" ++ v := by
    intro hm
    rcases List.mem_append.mp hm with h1 | h2
    · exact absurd h1 (by decide)
    · exact hv h2
  have hfind : find (str "k=" ++ v) (str "; ") = NPOS :=
    find_none_head ';' [' '] _ hnotin
  have hparam : substr0 (str "k=" ++ v) NPOS = str "k=" ++ v := by
    apply List.take_of_length_le
    rw [List.length_append]
    have h2 : (str "k=").length = 2 := rfl
    rw [h2]
    unfold NPOS at hlen ⊢
    omega
  simp only [params_loop, if_neg hne, hfind, hparam]
  rw [if_neg (by simp)]
  rw [find_keq, substr1_keq]
  simp only [Option.getD_some]
  have hkey : substr0 (str "k=" ++ v) 1 = str "k" := rfl
  rw [hkey]
  exact params_loop_nil n _

/-- Processing the two-token parameter text `k=<v1>; k=<v2>` (with
semicolon-free values) emplaces `(k, trim v1)` and then attempts to emplace
`(k, trim v2)`. -/
theorem params_loop_two (fuel : Nat) (v1 v2 : Str) (ps : List (Str × Str))
    (hs1 : ';' ∉ v1) (hs2 : ';' ∉ v2)
    (hlen : v1.length + v2.length + 8 < W) (hf : 1 < fuel) :
    params_loop fuel (str "k=" ++ (v1 ++ (str "; k=" ++ v2))) ps =
      emplace (emplace ps (str "k") (trim v1)) (str "k") (trim v2) := by
  rw [← List.append_assoc]
  obtain ⟨n, rfl⟩ : ∃ n, fuel = n + 1 := ⟨fuel - 1, by omega⟩
  have hW : W = 18446744073709551616 := rfl
  have hk2 : (str "k=").length = 2 := rfl
  have hne : (str "k=" ++ v1) ++ (str "; k=" ++ v2) ≠ [] := by
    show 'k' :: _ ≠ []
    exact List.cons_ne_nil _ _
  have hnotin : ';' ∉ str "k=" ++ v1 := by
    intro hm
    rcases List.mem_append.mp hm with h1 | h2
    · exact absurd h1 (by decide)
    · exact hs1 h2
  have hfind : find ((str "k=" ++ v1) ++ (str "; k=" ++ v2)) (str "; ") =
      (str "k=" ++ v1).length :=
    find_prefix ';' [' '] (str "k=" ++ v1) (str "; k=" ++ v2) hnotin rfl
  have hparam : substr0 ((str "k=" ++ v1) ++ (str "; k=" ++ v2))
      ((str "k=" ++ v1).length) = str "k=" ++ v1 :=
    List.take_left _ _
  have hnenpos : (str "k=" ++ v1).length ≠ NPOS := by
    rw [List.length_append, hk2]
    unfold NPOS
    omega
  have hsadd : sadd ((str "k=" ++ v1).length) 2 = v1.length + 4 := by
    unfold sadd
    rw [List.length_append, hk2, Nat.mod_eq_of_lt (by rw [hW]; omega)]
    omega
  have herase : erase0 ((str "k=" ++ v1) ++ (str "; k=" ++ v2)) (v1.length + 4) =
      str "k=" ++ v2 := by
    have hregroup : (str "k=" ++ v1) ++ (str "; k=" ++ v2) =
        ((str "k=" ++ v1) ++ str "; ") ++ (str "k=" ++ v2) := by
      rw [show str "; k=" = str "; " ++ str "k=" from rfl]
      simp [List.append_assoc]
    rw [hregroup]
    exact List.drop_left'
      (by rw [List.length_append, List.length_append, hk2,
              show (str "; ").length = 2 from rfl]; omega)
  simp only [params_loop, if_neg hne, hfind, hparam, hnenpos, hsadd, herase]
  rw [if_pos hnenpos]
  rw [find_keq, substr1_keq]
  simp only [Option.getD_some]
  have hkey : substr0 (str "k=" ++ v1) 1 = str "k" := rfl
  rw [hkey]
  exact params_loop_single n v2 _ hs2 (by unfold NPOS; rw [hW] at hlen; omega) (by omega)

/-- C10: confirmed.  A header line `a: b; k=<v1>; k=<v2>` carrying two
parameters with the same name `k` (values free of semicolons and carriage
returns, and of realistic length) parses to a single header whose parameter
map holds only the first occurrence's quote-trimmed value; `emplace` silently
drops the second occurrence, so it cannot be recovered from the parsed
structure. -/
theorem duplicate_params_keep_first_occurrence (v1 v2 : Str)
    (hs1 : ';' ∉ v1) (hs2 : ';' ∉ v2) (hr1 : '\r' ∉ v1) (hr2 : '\r' ∉ v2)
    (hlen : v1.length + v2.length < 4294967296) :
    parse_section_head ((str "a: b; k=" ++ (v1 ++ (str "; k=" ++ v2))) ++ crlf) =
      some [⟨(str "a", str "b"), [(str "k", trim v1)]⟩] := by
  have hrL : '\r' ∉ str "a: b; k=" ++ (v1 ++ (str "; k=" ++ v2)) := by
    intro hm
    rcases List.mem_append.mp hm with h | hm
    · exact (by decide : '\r' ∉ str "a: b; k=") h
    rcases List.mem_append.mp hm with h | hm
    · exact hr1 h
    rcases List.mem_append.mp hm with h | h
    · exact (by decide : '\r' ∉ str "; k=") h
    · exact hr2 h
  have hlenL : (str "a: b; k=" ++ (v1 ++ (str "; k=" ++ v2))).length =
      v1.length + v2.length + 12 := by
    simp only [List.length_append, show (str "a: b; k=").length = 8 from rfl,
      show (str "; k=").length = 4 from rfl]
    omega
  have hlinesne : (str "a: b; k=" ++ (v1 ++ (str "; k=" ++ v2))) ++ crlf ≠ [] := by
    intro h
    exact absurd (List.append_eq_nil.mp h).2 (by decide)
  have hfind1 : find ((str "a: b; k=" ++ (v1 ++ (str "; k=" ++ v2))) ++ crlf) crlf =
      (str "a: b; k=" ++ (v1 ++ (str "; k=" ++ v2))).length :=
    find_prefix '\r' ['\n'] _ crlf hrL rfl
  have htake1 : substr0 ((str "a: b; k=" ++ (v1 ++ (str "; k=" ++ v2))) ++ crlf)
      ((str "a: b; k=" ++ (v1 ++ (str "; k=" ++ v2))).length) =
      str "a: b; k=" ++ (v1 ++ (str "; k=" ++ v2)) :=
    List.take_left _ _
  have hsadd1 : sadd ((str "a: b; k=" ++ (v1 ++ (str "; k=" ++ v2))).length) 2 =
      (str "a: b; k=" ++ (v1 ++ (str "; k=" ++ v2))).length + 2 := by
    unfold sadd
    apply Nat.mod_eq_of_lt
    rw [hlenL]
    unfold W
    omega
  have herase1 : erase0 ((str "a: b; k=" ++ (v1 ++ (str "; k=" ++ v2))) ++ crlf)
      ((str "a: b; k=" ++ (v1 ++ (str "; k=" ++ v2))).length + 2) = [] := by
    show ((str "a: b; k=" ++ (v1 ++ (str "; k=" ++ v2))) ++ crlf).drop _ = []
    have hl : ((str "a: b; k=" ++ (v1 ++ (str "; k=" ++ v2))) ++ crlf).length =
        (str "a: b; k=" ++ (v1 ++ (str "; k=" ++ v2))).length + 2 := by
      rw [List.length_append, show crlf.length = 2 from rfl]
    rw [← hl, List.drop_length]
  have hLne : str "a: b; k=" ++ (v1 ++ (str "; k=" ++ v2)) ≠ [] := by
    show ('a' :: (str ": b; k=" ++ (v1 ++ (str "; k=" ++ v2))) : Str) ≠ []
    exact List.cons_ne_nil _ _
  have hre : str "a: b; k=" ++ (v1 ++ (str "; k=" ++ v2)) =
      str "a: b" ++ (str "; k=" ++ (v1 ++ (str "; k=" ++ v2))) := by
    rw [show str "a: b; k=" = str "a: b" ++ str "; k=" from rfl, List.append_assoc]
  have hfind2 : find (str "a: b; k=" ++ (v1 ++ (str "; k=" ++ v2))) (str "; ") = 4 := by
    rw [hre]
    exact find_prefix ';' [' '] (str "a: b") _ (by decide) rfl
  have htake2 : substr0 (str "a: b; k=" ++ (v1 ++ (str "; k=" ++ v2))) 4 = str "a: b" := by
    rw [hre]
    exact List.take_left' (show (str "a: b").length = 4 from rfl)
  have herase2 : erase0 (str "a: b; k=" ++ (v1 ++ (str "; k=" ++ v2))) 6 =
      str "k=" ++ (v1 ++ (str "; k=" ++ v2)) := by
    rw [show str "a: b; k=" = str "a: b; " ++ str "k=" from rfl, List.append_assoc]
    exact List.drop_left' (show (str "a: b; ").length = 6 from rfl)
  have hparams : params_loop ((str "k=" ++ (v1 ++ (str "; k=" ++ v2))).length + 1)
      (str "k=" ++ (v1 ++ (str "; k=" ++ v2))) [] = [(str "k", trim v1)] := by
    rw [params_loop_two _ v1 v2 [] hs1 hs2 (by unfold W; omega)
      (by rw [List.length_append, show (str "k=").length = 2 from rfl]; omega)]
    have he1 : emplace [] (str "k") (trim v1) = [(str "k", trim v1)] := by
      simp [emplace]
    rw [he1]
    simp [emplace]
  show parse_section_head_loop
      (((str "a: b; k=" ++ (v1 ++ (str "; k=" ++ v2))) ++ crlf).length + 1)
      ((str "a: b; k=" ++ (v1 ++ (str "; k=" ++ v2))) ++ crlf) [] =
    some [⟨(str "a", str "b"), [(str "k", trim v1)]⟩]
  rw [parse_section_head_loop.eq_2]
  simp only []
  rw [if_neg hlinesne, hfind1, htake1, hsadd1, herase1, if_neg hLne, hfind2, htake2]
  rw [if_pos (show (4 : Nat) ≠ NPOS by decide)]
  rw [show sadd 4 2 = 6 from rfl, herase2]
  rw [show find (str "a: b") (str ": ") = 1 from by decide]
  rw [show sadd 1 2 = 3 from rfl]
  rw [show substr1 (str "a: b") 3 = some (str "b") from by decide]
  rw [show substr0 (str "a: b") 1 = str "a" from by decide]
  rw [hparams]
  show parse_section_head_loop _ [] ([] ++ [⟨(str "a", str "b"), [(str "k", trim v1)]⟩]) =
    some [⟨(str "a", str "b"), [(str "k", trim v1)]⟩]
  rw [parse_section_head_loop_nil, List.nil_append]

/-- C10 witness: the duplicate-parameter theorem instantiated at the concrete
line `a: b; k=1; k=2`, whose parsed parameter map is exactly `k` mapped to the
first value `1`. -/
theorem duplicate_params_keep_first_occurrence_witness :
    parse_section_head ((str "a: b; k=" ++ (str "1" ++ (str "; k=" ++ str "2"))) ++ crlf) =
      some [⟨(str "a", str "b"), [(str "k", trim (str "1"))]⟩] :=
  duplicate_params_keep_first_occurrence (str "1") (str "2")
    (by decide) (by decide) (by decide) (by decide) (by decide)

end Crow.Multipart
